import Mathlib

/-!
Shallow embedding of the thermostat simulation (src/streamlit_app.py):
the fixed-step process model, the On-Off / PID / Q-Learning controllers,
and the area metrics.  All arithmetic is exact rational arithmetic; the
Python float literals 0.1 and 0.5 are embedded as the rationals 1/10 and
1/2.  Python lists are Lean lists, fallible list indexing is
Option-valued, and the numpy random draws of the Q-Learning trainer are
modelled as an explicit oracle stream of (explore?, random action) pairs.
-/

namespace Thermostat

/-- Simulation configuration: the sidebar inputs of streamlit_app.py.
simulation_minutes is an integer number input (10..120 in the UI). -/
structure Config where
  initial_room_temperature : ℚ
  outside_temperature : ℚ
  thermostat_setting : ℚ
  heater_power : ℚ
  heat_loss : ℚ
  simulation_minutes : ℕ
  thermostat_sensitivity : ℚ

/-- Number of loop iterations of np.arange(0, minutes, 0.1), namely
ceil((stop - start) / step). -/
def nSteps (minutes : ℕ) : ℕ := (⌈(minutes : ℚ) / (1/10)⌉).toNat

/-- The time axis np.arange(0, minutes, 0.1): element i is i * 0.1. -/
def timeGrid (minutes : ℕ) : List ℚ :=
  (List.range (nSteps minutes)).map fun i : ℕ => (i : ℚ) * (1/10)

/-- Python int(): truncation toward zero on a rational value. -/
def pyInt (q : ℚ) : ℤ := if 0 ≤ q then ⌊q⌋ else ⌈q⌉

/-- get_state: discretizes the temperature into states,
int(min(40, max(0, (temperature - 10) / 0.5))). -/
def get_state (temperature : ℚ) : ℤ :=
  pyInt (min 40 (max 0 ((temperature - 10) / (1/2))))

/-- The state bucket as an index into the 41-row Q table. -/
def stateIdx (t : ℚ) : Fin 41 :=
  ⟨(get_state t).toNat, by
    have h0 : (0 : ℚ) ≤ min 40 (max 0 ((t - 10) / (1/2))) :=
      le_min (by norm_num) (le_max_left _ _)
    have h1 : get_state t = ⌊min (40 : ℚ) (max 0 ((t - 10) / (1/2)))⌋ := by
      rw [get_state, pyInt, if_pos h0]
    have h2 : ⌊min (40 : ℚ) (max 0 ((t - 10) / (1/2)))⌋ ≤ ⌊(40 : ℚ)⌋ :=
      Int.floor_mono (min_le_left _ _)
    have h3 : ⌊(40 : ℚ)⌋ = 40 := by
      norm_num
    omega⟩

/-- get_reward: reward computed from the discretized state and the action. -/
def get_reward (state : ℤ) (action : ℕ) (thermostat_setting : ℚ) : ℚ :=
  let state_temp : ℚ := 10 + (state : ℚ) * (1/2)
  if |state_temp - thermostat_setting| ≤ 1/2 then 10
  else if action = 1 ∧ state_temp > thermostat_setting + 1/2 then -10
  else if action = 0 ∧ state_temp < thermostat_setting - 1/2 then -5
  else -1

/-- The Q table: 41 discretized states, 2 actions. -/
abbrev QTable := Fin 41 → Fin 2 → ℚ

/-- Module-level initialization q_table = np.zeros((num_states, num_actions)),
executed once when the script loads. -/
def initQTable : QTable := fun _ _ => 0

/-- np.argmax over the two-entry row q[state, :]: the first index attaining
the maximum (ties go to action 0). -/
def qArgmax (q : QTable) (s : Fin 41) : Fin 2 :=
  if q s 0 < q s 1 then 1 else 0

/-- get_action: epsilon-greedy policy, with the numpy randomness supplied
as an oracle pair draw = (explore?, uniformly drawn action). -/
def get_action (state : Fin 41) (q : QTable) (draw : Bool × Fin 2) : Fin 2 :=
  if draw.1 then draw.2 else qArgmax q state

/-- In-place entry update q_table[s, a] = v. -/
def qUpdate (q : QTable) (s : Fin 41) (a : Fin 2) (v : ℚ) : QTable :=
  fun s2 a2 => if s2 = s ∧ a2 = a then v else q s2 a2

/-- The fixed Q-learning hyperparameters of the script. -/
structure QHyper where
  learning_rate : ℚ
  discount_factor : ℚ

/-- One inner training step of run_q_learning_simulation: choose an action,
advance the temperature, compute the reward of the resulting bucket, and
apply the temporal-difference update to the carried table. -/
def qTrainStep (cfg : Config) (hy : QHyper) (draw : Bool × Fin 2)
    (st : QTable × ℚ × Fin 41) : QTable × ℚ × Fin 41 :=
  let q := st.1
  let room_temperature := st.2.1
  let state := st.2.2
  let action := get_action state q draw
  let temp2 := if action = (1 : Fin 2) then room_temperature + cfg.heater_power * (1/10)
               else room_temperature - cfg.heat_loss * (1/10)
  let next_state := stateIdx temp2
  let reward := get_reward (next_state.val : ℤ) action.val cfg.thermostat_setting
  let q2 := qUpdate q state action
    (q state action + hy.learning_rate *
      (reward + hy.discount_factor * max (q next_state 0) (q next_state 1) - q state action))
  (q2, temp2, next_state)

/-- One training episode: temperature is reset to the configured initial
value, then nSteps training steps run, threading the table. -/
def qTrainEpisode (cfg : Config) (hy : QHyper) (draws : ℕ → Bool × Fin 2)
    (q : QTable) : QTable :=
  ((List.range (nSteps cfg.simulation_minutes)).foldl
      (fun st i => qTrainStep cfg hy (draws i) st)
      (q, cfg.initial_room_temperature, stateIdx cfg.initial_room_temperature)).1

/-- The training phase: episodes successive episodes starting from the
table q the function received (the module global at call time). -/
def qTrain (cfg : Config) (hy : QHyper) (episodes : ℕ)
    (rand : ℕ → ℕ → Bool × Fin 2) (q : QTable) : QTable :=
  (List.range episodes).foldl (fun q2 ep => qTrainEpisode cfg hy (rand ep) q2) q

/-- One step of the final greedy rollout: always the argmax action; the
table component is read but never written. -/
def qEvalStep (cfg : Config) (st : QTable × ℚ × Fin 41) : QTable × ℚ × Fin 41 :=
  let q := st.1
  let room_temperature := st.2.1
  let state := st.2.2
  let action := qArgmax q state
  let temp2 := if action = (1 : Fin 2) then room_temperature + cfg.heater_power * (1/10)
               else room_temperature - cfg.heat_loss * (1/10)
  (q, temp2, stateIdx temp2)

/-- The greedy-rollout state after n steps, starting from table q. -/
def qEvalState (cfg : Config) (q : QTable) : ℕ → QTable × ℚ × Fin 41
  | 0 => (q, cfg.initial_room_temperature, stateIdx cfg.initial_room_temperature)
  | n + 1 => qEvalStep cfg (qEvalState cfg q n)

/-- run_q_learning_simulation: trains on the incoming global table, then
produces the greedy evaluation trajectory; returns (time, temperatures,
final global table). -/
def run_q_learning_simulation (cfg : Config) (hy : QHyper) (episodes : ℕ)
    (rand : ℕ → ℕ → Bool × Fin 2) (q0 : QTable) : List ℚ × List ℚ × QTable :=
  let qT := qTrain cfg hy episodes rand q0
  (timeGrid cfg.simulation_minutes,
   (List.range (nSteps cfg.simulation_minutes)).map
     (fun i => (qEvalState cfg qT (i + 1)).2.1),
   (qEvalState cfg qT (nSteps cfg.simulation_minutes)).1)

/-- The time list of the Q-Learning run. -/
def qTime (cfg : Config) (hy : QHyper) (episodes : ℕ)
    (rand : ℕ → ℕ → Bool × Fin 2) (q0 : QTable) : List ℚ :=
  (run_q_learning_simulation cfg hy episodes rand q0).1

/-- The temperature list of the Q-Learning run. -/
def qTemps (cfg : Config) (hy : QHyper) (episodes : ℕ)
    (rand : ℕ → ℕ → Bool × Fin 2) (q0 : QTable) : List ℚ :=
  (run_q_learning_simulation cfg hy episodes rand q0).2.1

/-- The state of the module-global q_table when the call returns. -/
def qFinalTable (cfg : Config) (hy : QHyper) (episodes : ℕ)
    (rand : ℕ → ℕ → Bool × Fin 2) (q0 : QTable) : QTable :=
  (run_q_learning_simulation cfg hy episodes rand q0).2.2

/-- The hysteresis decision of run_on_off_simulation: turn on below
setting - sensitivity, turn off above setting + sensitivity, otherwise
keep the previous heater status. -/
def onOffUpdateStatus (cfg : Config) (room_temperature : ℚ) (heater_status : Bool) : Bool :=
  if room_temperature < cfg.thermostat_setting - cfg.thermostat_sensitivity then true
  else if room_temperature > cfg.thermostat_setting + cfg.thermostat_sensitivity then false
  else heater_status

/-- One loop iteration of run_on_off_simulation on (temperature, status). -/
def onOffStep (cfg : Config) (st : ℚ × Bool) : ℚ × Bool :=
  let heater_status := onOffUpdateStatus cfg st.1 st.2
  (if heater_status then st.1 + cfg.heater_power * (1/10)
   else st.1 - cfg.heat_loss * (1/10),
   heater_status)

/-- The On-Off loop state after n iterations; the heater starts off. -/
def onOffState (cfg : Config) : ℕ → ℚ × Bool
  | 0 => (cfg.initial_room_temperature, false)
  | n + 1 => onOffStep cfg (onOffState cfg n)

/-- The recorded temperatures of the On-Off run: the temperature appended
at iteration i is the one after the update of that iteration. -/
def onOffTemps (cfg : Config) : List ℚ :=
  (List.range (nSteps cfg.simulation_minutes)).map fun i => (onOffState cfg (i + 1)).1

/-- The PID gains from the sidebar. -/
structure PIDGains where
  Kp : ℚ
  Ki : ℚ
  Kd : ℚ

/-- The PID loop state carried between iterations. -/
structure PIDState where
  room_temperature : ℚ
  integral_error : ℚ
  previous_error : ℚ

/-- One loop iteration of run_pid_simulation: returns the next controller
state and the clamped heater output applied during the step. -/
def pidStep (cfg : Config) (g : PIDGains) (st : PIDState) : PIDState × ℚ :=
  let error := cfg.thermostat_setting - st.room_temperature
  let proportional_term := g.Kp * error
  let integral_error := st.integral_error + error * (1/10)
  let integral_term := g.Ki * integral_error
  let derivative_term := g.Kd * (error - st.previous_error) / (1/10)
  let pid_output := proportional_term + integral_term + derivative_term
  let heater_output_percent := max 0 (min 1 pid_output)
  ({ room_temperature :=
       st.room_temperature + (cfg.heater_power * heater_output_percent - cfg.heat_loss) * (1/10),
     integral_error := integral_error,
     previous_error := error },
   heater_output_percent)

/-- The PID loop state after n iterations; integral and previous error
start at zero. -/
def pidState (cfg : Config) (g : PIDGains) : ℕ → PIDState
  | 0 => ⟨cfg.initial_room_temperature, 0, 0⟩
  | n + 1 => (pidStep cfg g (pidState cfg g n)).1

/-- The heater output (actuation) applied at iteration n of the PID run. -/
def pidAct (cfg : Config) (g : PIDGains) (n : ℕ) : ℚ :=
  (pidStep cfg g (pidState cfg g n)).2

/-- The recorded temperatures of the PID run. -/
def pidTemps (cfg : Config) (g : PIDGains) : List ℚ :=
  (List.range (nSteps cfg.simulation_minutes)).map fun i => (pidState cfg g (i + 1)).room_temperature

/-- The recorded heater outputs of the PID run. -/
def pidHeaterOut (cfg : Config) (g : PIDGains) : List ℚ :=
  (List.range (nSteps cfg.simulation_minutes)).map fun i => pidAct cfg g i

/-- The loop body of calculate_area_between_temp at index i,
area += abs(room_temperatures[i] - set_temp) * (time[i] - time[i-1]). -/
def areaStep (time room_temperatures : List ℚ) (set_temp : ℚ)
    (acc : Option ℚ) (i : ℕ) : Option ℚ := do
  let area ← acc
  let ti ← time[i]?
  let tp ← time[i - 1]?
  let Ti ← room_temperatures[i]?
  pure (area + |Ti - set_temp| * (ti - tp))

/-- calculate_area_between_temp: loop for i in range(1, len(time)). -/
def calculate_area_between_temp (time room_temperatures : List ℚ) (set_temp : ℚ) : Option ℚ :=
  (List.range' 1 (time.length - 1)).foldl (areaStep time room_temperatures set_temp) (some 0)

/-- The loop body of calculate_area_metrics at index i, accumulating
(overshoot, undershoot) from the trapezoidal-average temperature. -/
def metricsStep (time room_temperatures : List ℚ) (set_temp : ℚ)
    (acc : Option (ℚ × ℚ)) (i : ℕ) : Option (ℚ × ℚ) := do
  let p ← acc
  let ti ← time[i]?
  let tp ← time[i - 1]?
  let Ti ← room_temperatures[i]?
  let Tp ← room_temperatures[i - 1]?
  let dt := ti - tp
  let avg_temp := (Ti + Tp) / 2
  if avg_temp > set_temp then pure (p.1 + (avg_temp - set_temp) * dt, p.2)
  else if avg_temp < set_temp then pure (p.1, p.2 + (set_temp - avg_temp) * dt)
  else pure p

/-- calculate_area_metrics: returns (overshoot, undershoot, total_area)
with total_area = overshoot + undershoot. -/
def calculate_area_metrics (time room_temperatures : List ℚ) (set_temp : ℚ) :
    Option (ℚ × ℚ × ℚ) := do
  let p ← (List.range' 1 (time.length - 1)).foldl
    (metricsStep time room_temperatures set_temp) (some (0, 0))
  pure (p.1, p.2, p.1 + p.2)

/-- The time increment between samples i-1 and i (default 0 out of range). -/
def dtAt (time : List ℚ) (i : ℕ) : ℚ := time.getD i 0 - time.getD (i - 1) 0

/-- The trapezoidal-average temperature of samples i-1 and i. -/
def avgAt (temps : List ℚ) (i : ℕ) : ℚ := (temps.getD i 0 + temps.getD (i - 1) 0) / 2

/-- The accumulated overshoot area, written as a closed sum. -/
def overshootSum (time temps : List ℚ) (s : ℚ) : ℚ :=
  ∑ i ∈ Finset.Ico 1 time.length,
    if avgAt temps i > s then (avgAt temps i - s) * dtAt time i else 0

/-- The accumulated undershoot area, written as a closed sum. -/
def undershootSum (time temps : List ℚ) (s : ℚ) : ℚ :=
  ∑ i ∈ Finset.Ico 1 time.length,
    if avgAt temps i < s then (s - avgAt temps i) * dtAt time i else 0

/-- Modelled from the spec: the trapezoidal-rule approximation of the
integral of the absolute deviation from the setpoint. -/
def trapAreaSum (time temps : List ℚ) (s : ℚ) : ℚ :=
  ∑ i ∈ Finset.Ico 1 time.length, |avgAt temps i - s| * dtAt time i

/-- The right-endpoint approximation actually accumulated by
calculate_area_between_temp, written as a closed sum. -/
def rightAreaSum (time temps : List ℚ) (s : ℚ) : ℚ :=
  ∑ i ∈ Finset.Ico 1 time.length, |temps.getD i 0 - s| * dtAt time i

/-- A concrete configuration used by witnesses: initial 19, outside 10,
setpoint 20, heater power 0.3, heat loss 0.1, one minute horizon,
sensitivity 0.5. -/
def cfg0 : Config :=
  { initial_room_temperature := 19
    outside_temperature := 10
    thermostat_setting := 20
    heater_power := 3/10
    heat_loss := 1/10
    simulation_minutes := 1
    thermostat_sensitivity := 1/2 }

/-- The default sidebar PID gains. -/
def gains0 : PIDGains := { Kp := 1/2, Ki := 1/10, Kd := 1/100 }

/-- The fixed script hyperparameters: alpha 0.1, gamma 0.95. -/
def hy0 : QHyper := { learning_rate := 1/10, discount_factor := 95/100 }

/-- A degenerate random oracle (never explore, action 0). -/
def rand0 : ℕ → ℕ → Bool × Fin 2 := fun _ _ => (false, 0)

/-- A table that is nonzero at bucket 18, action 1 — the shape the global
q_table has after an earlier Q-Learning call has trained it. -/
def qNZ : QTable := fun s a => if s = (18 : Fin 41) ∧ a = (1 : Fin 2) then 1 else 0

/-! ### Helper lemmas -/

/-- The table component of the greedy rollout never changes. -/
lemma qEvalState_fst (cfg : Config) (q : QTable) (n : ℕ) :
    (qEvalState cfg q n).1 = q := by
  induction n with
  | zero => rfl
  | succ n ih => simpa [qEvalState, qEvalStep] using ih

/-- Case analysis of the hysteresis decision. -/
lemma onOffUpdateStatus_cases (cfg : Config) (t : ℚ) (s : Bool) :
    (s = false → onOffUpdateStatus cfg t s = true →
      t < cfg.thermostat_setting - cfg.thermostat_sensitivity) ∧
    (s = true → onOffUpdateStatus cfg t s = false →
      t > cfg.thermostat_setting + cfg.thermostat_sensitivity) ∧
    (cfg.thermostat_setting - cfg.thermostat_sensitivity < t →
      t < cfg.thermostat_setting + cfg.thermostat_sensitivity →
      onOffUpdateStatus cfg t s = s) := by
  unfold onOffUpdateStatus
  refine ⟨?_, ?_, ?_⟩
  · intro hs h
    subst hs
    split_ifs at h with h1 h2
    exact h1
  · intro hs h
    subst hs
    split_ifs at h with h1 h2
    exact h2
  · intro hlo hhi
    rw [if_neg (not_lt.mpr hlo.le), if_neg (not_lt.mpr hhi.le)]

/-- For an in-range index, fallible indexing returns the getD value. -/
lemma getElem?_eq_some_getD (l : List ℚ) (i : ℕ) (h : i < l.length) :
    l[i]? = some (l.getD i 0) := by
  rw [List.getElem?_eq_getElem h, List.getD_eq_getElem?_getD, List.getElem?_eq_getElem h]
  rfl

/-- The arange step count is exactly ten steps per minute. -/
lemma nSteps_eq (m : ℕ) : nSteps m = 10 * m := by
  have h : (m : ℚ) / (1/10) = ((10 * m : ℕ) : ℚ) := by
    push_cast
    ring
  rw [nSteps, h, Int.ceil_natCast]
  exact Int.toNat_ofNat _

/-- The length of the time axis. -/
lemma timeGrid_length (m : ℕ) : (timeGrid m).length = nSteps m := by
  rw [timeGrid, List.length_map, List.length_range]

/-- The i-th time sample is i * 0.1. -/
lemma timeGrid_getD (m i : ℕ) (h : i < nSteps m) :
    (timeGrid m).getD i 0 = (i : ℚ) * (1/10) := by
  rw [timeGrid, List.getD_eq_getElem?_getD, List.getElem?_map, List.getElem?_range h]
  rfl

/-- Floor commutes with the clamp of get_state. -/
lemma floor_clamp (x : ℚ) : ⌊min (40 : ℚ) (max 0 x)⌋ = min 40 (max 0 ⌊x⌋) := by
  have h40 : ⌊(40 : ℚ)⌋ = 40 := by norm_num
  rcases le_total x 0 with hx | hx
  · have hfx : ⌊x⌋ ≤ 0 := by
      simpa using Int.floor_mono hx
    rw [max_eq_left hx, min_eq_right (by norm_num : (0 : ℚ) ≤ 40), Int.floor_zero]
    omega
  · rcases le_total x 40 with hx40 | hx40
    · have hfl : ⌊x⌋ ≤ 40 := by
        have := Int.floor_mono hx40
        omega
      have hf0 : 0 ≤ ⌊x⌋ := Int.floor_nonneg.mpr hx
      rw [max_eq_right hx, min_eq_right hx40]
      omega
    · have hfl : 40 ≤ ⌊x⌋ := by
        have := Int.floor_mono hx40
        omega
      rw [max_eq_right hx, min_eq_left hx40, h40]
      omega

/-- Head of the evaluation-trajectory map, for a positive step count. -/
lemma runTemps_head (cfg : Config) (q : QTable) (h : 0 < nSteps cfg.simulation_minutes) :
    ((List.range (nSteps cfg.simulation_minutes)).map
      (fun i => (qEvalState cfg q (i + 1)).2.1)).head? = some ((qEvalState cfg q 1).2.1) := by
  obtain ⟨k, hk⟩ : ∃ k, nSteps cfg.simulation_minutes = k + 1 :=
    ⟨nSteps cfg.simulation_minutes - 1, by omega⟩
  rw [hk, List.range_succ_eq_map]
  rfl

/-- The area loop body at a valid index adds the right-endpoint term. -/
lemma areaStep_valid (time temps : List ℚ) (s a : ℚ) (i : ℕ)
    (h : i < time.length) (h2 : i < temps.length) :
    areaStep time temps s (some a) i
      = some (a + |temps.getD i 0 - s| * dtAt time i) := by
  have h1 : i - 1 < time.length := by omega
  rw [areaStep, getElem?_eq_some_getD time i h, getElem?_eq_some_getD time (i - 1) h1,
      getElem?_eq_some_getD temps i h2]
  rfl

/-- The metrics loop body at a valid index adds the trapezoidal terms. -/
lemma metricsStep_valid (time temps : List ℚ) (s o u : ℚ) (i : ℕ)
    (h : i < time.length) (h2 : i < temps.length) :
    metricsStep time temps s (some (o, u)) i
      = some (o + (if avgAt temps i > s then (avgAt temps i - s) * dtAt time i else 0),
              u + (if avgAt temps i < s then (s - avgAt temps i) * dtAt time i else 0)) := by
  have h1 : i - 1 < time.length := by omega
  have h3 : i - 1 < temps.length := by omega
  rw [metricsStep, getElem?_eq_some_getD time i h, getElem?_eq_some_getD time (i - 1) h1,
      getElem?_eq_some_getD temps i h2, getElem?_eq_some_getD temps (i - 1) h3]
  show (if avgAt temps i > s
        then some (o + (avgAt temps i - s) * dtAt time i, u)
        else if avgAt temps i < s
        then some (o, u + (s - avgAt temps i) * dtAt time i)
        else some (o, u))
      = some (o + (if avgAt temps i > s then (avgAt temps i - s) * dtAt time i else 0),
              u + (if avgAt temps i < s then (s - avgAt temps i) * dtAt time i else 0))
  rcases lt_trichotomy (avgAt temps i) s with hlt | heq | hgt
  · simp only [if_neg (not_lt.mpr hlt.le), if_pos hlt, add_zero]
  · simp [heq]
  · simp only [if_pos hgt, if_neg (not_lt.mpr hgt.le), add_zero]

/-- The metrics loop over indices 1..m accumulates the two closed sums. -/
lemma metricsFold_eq (time temps : List ℚ) (s : ℚ) (hlen : temps.length = time.length)
    (m : ℕ) (hm : m < time.length) (o u : ℚ) :
    (List.range' 1 m).foldl (metricsStep time temps s) (some (o, u)) =
      some (o + ∑ i ∈ Finset.Ico 1 (m + 1),
              (if avgAt temps i > s then (avgAt temps i - s) * dtAt time i else 0),
            u + ∑ i ∈ Finset.Ico 1 (m + 1),
              (if avgAt temps i < s then (s - avgAt temps i) * dtAt time i else 0)) := by
  induction m with
  | zero => simp
  | succ m ih =>
    rw [List.range'_1_concat, List.foldl_append, ih (by omega), List.foldl_cons,
        List.foldl_nil,
        metricsStep_valid time temps s _ _ (1 + m) (by omega) (by omega),
        Finset.sum_Ico_succ_top (by omega : 1 ≤ m + 1),
        Finset.sum_Ico_succ_top (by omega : 1 ≤ m + 1),
        (by omega : 1 + m = m + 1), add_assoc, add_assoc]

/-- The area loop over indices 1..m accumulates the right-endpoint sum. -/
lemma areaFold_eq (time temps : List ℚ) (s : ℚ) (hlen : temps.length = time.length)
    (m : ℕ) (hm : m < time.length) (a : ℚ) :
    (List.range' 1 m).foldl (areaStep time temps s) (some a) =
      some (a + ∑ i ∈ Finset.Ico 1 (m + 1), |temps.getD i 0 - s| * dtAt time i) := by
  induction m with
  | zero => simp
  | succ m ih =>
    rw [List.range'_1_concat, List.foldl_append, ih (by omega), List.foldl_cons,
        List.foldl_nil,
        areaStep_valid time temps s _ (1 + m) (by omega) (by omega),
        Finset.sum_Ico_succ_top (by omega : 1 ≤ m + 1),
        (by omega : 1 + m = m + 1), add_assoc]

/-! ### Claim theorems -/

/-- C3: get_state returns exactly clamp(floor((temperature - 10) / 0.5), 0, 40)
with floor-toward-negative-infinity semantics, and the result is always an
integer in [0, 40], also for temperatures below 10 or above 30. -/
theorem get_state_clamp_floor (t : ℚ) :
    get_state t = min 40 (max 0 ⌊(t - 10) / (1/2)⌋) ∧
    0 ≤ get_state t ∧ get_state t ≤ 40 := by
  have h0 : (0 : ℚ) ≤ min 40 (max 0 ((t - 10) / (1/2))) :=
    le_min (by norm_num) (le_max_left _ _)
  have h1 : get_state t = ⌊min (40 : ℚ) (max 0 ((t - 10) / (1/2)))⌋ := by
    rw [get_state, pyInt, if_pos h0]
  have h2 : ⌊min (40 : ℚ) (max 0 ((t - 10) / (1/2)))⌋
      = min 40 (max 0 ⌊(t - 10) / (1/2)⌋) := floor_clamp _
  refine ⟨h1.trans h2, ?_, ?_⟩
  · rw [h1]
    exact Int.floor_nonneg.mpr h0
  · rw [h1.trans h2]
    omega

/-- C5: at every step of every PID run the actuation applied to the process
model is clamp(Kp error + Ki integral + Kd derivative, 0, 1), hence always
in [0, 1] regardless of the error magnitude. -/
theorem pid_actuation_clamped (cfg : Config) (g : PIDGains) (n : ℕ) :
    0 ≤ pidAct cfg g n ∧ pidAct cfg g n ≤ 1 ∧
    pidAct cfg g n = max 0 (min 1
      (g.Kp * (cfg.thermostat_setting - (pidState cfg g n).room_temperature)
        + g.Ki * ((pidState cfg g n).integral_error
            + (cfg.thermostat_setting - (pidState cfg g n).room_temperature) * (1/10))
        + g.Kd * ((cfg.thermostat_setting - (pidState cfg g n).room_temperature)
            - (pidState cfg g n).previous_error) / (1/10))) := by
  have h : pidAct cfg g n = max 0 (min 1
      (g.Kp * (cfg.thermostat_setting - (pidState cfg g n).room_temperature)
        + g.Ki * ((pidState cfg g n).integral_error
            + (cfg.thermostat_setting - (pidState cfg g n).room_temperature) * (1/10))
        + g.Kd * ((cfg.thermostat_setting - (pidState cfg g n).room_temperature)
            - (pidState cfg g n).previous_error) / (1/10))) := rfl
  rw [h]
  exact ⟨le_max_left _ _, max_le (by norm_num) (min_le_left _ _), rfl⟩

/-- C6: every On-Off run starts with the heater off; the status switches to
on only when the temperature is below setpoint minus band, switches to off
only when above setpoint plus band, and never changes while the temperature
is strictly inside the dead-band. -/
theorem on_off_hysteresis (cfg : Config) :
    (onOffState cfg 0).2 = false ∧
    ∀ n : ℕ,
      ((onOffState cfg n).2 = false → (onOffState cfg (n + 1)).2 = true →
        (onOffState cfg n).1 < cfg.thermostat_setting - cfg.thermostat_sensitivity) ∧
      ((onOffState cfg n).2 = true → (onOffState cfg (n + 1)).2 = false →
        (onOffState cfg n).1 > cfg.thermostat_setting + cfg.thermostat_sensitivity) ∧
      (cfg.thermostat_setting - cfg.thermostat_sensitivity < (onOffState cfg n).1 →
        (onOffState cfg n).1 < cfg.thermostat_setting + cfg.thermostat_sensitivity →
        (onOffState cfg (n + 1)).2 = (onOffState cfg n).2) :=
  ⟨rfl, fun n => onOffUpdateStatus_cases cfg (onOffState cfg n).1 (onOffState cfg n).2⟩

/-- C6 witness: in the default configuration the heater turns on at the
first step, so the temperature was below setpoint minus band. -/
theorem on_off_hysteresis_witness :
    (onOffState cfg0 0).1 < cfg0.thermostat_setting - cfg0.thermostat_sensitivity :=
  ((on_off_hysteresis cfg0).2 0).1 rfl
    (by norm_num [onOffState, onOffStep, onOffUpdateStatus, cfg0])

/-- C8: the reward is +10 when the bucket temperature is within 0.5 of the
setpoint, else -10 when heating while above setpoint + 0.5, else -5 when
not heating while below setpoint - 0.5, else -1, in that priority order. -/
theorem get_reward_cases (state : ℤ) (action : ℕ) (setting : ℚ) :
    (|10 + (state : ℚ) * (1/2) - setting| ≤ 1/2 →
      get_reward state action setting = 10) ∧
    (¬ |10 + (state : ℚ) * (1/2) - setting| ≤ 1/2 →
      action = 1 → 10 + (state : ℚ) * (1/2) > setting + 1/2 →
      get_reward state action setting = -10) ∧
    (¬ |10 + (state : ℚ) * (1/2) - setting| ≤ 1/2 →
      ¬ (action = 1 ∧ 10 + (state : ℚ) * (1/2) > setting + 1/2) →
      action = 0 → 10 + (state : ℚ) * (1/2) < setting - 1/2 →
      get_reward state action setting = -5) ∧
    (¬ |10 + (state : ℚ) * (1/2) - setting| ≤ 1/2 →
      ¬ (action = 1 ∧ 10 + (state : ℚ) * (1/2) > setting + 1/2) →
      ¬ (action = 0 ∧ 10 + (state : ℚ) * (1/2) < setting - 1/2) →
      get_reward state action setting = -1) := by
  refine ⟨?_, ?_, ?_, ?_⟩ <;> intros <;> simp only [get_reward] <;> split_ifs <;>
    first | rfl | tauto

/-- C8 witness: bucket 20 (20 degrees) at the 20-degree setpoint is within
the acceptable band and earns reward +10. -/
theorem get_reward_cases_witness : get_reward 20 0 20 = 10 :=
  (get_reward_cases 20 0 20).1 (by norm_num)

/-- C10: the final greedy evaluation rollout never writes the Q table: the
table the call leaves behind equals the table at the end of training. -/
theorem eval_rollout_preserves_qtable (cfg : Config) (hy : QHyper) (episodes : ℕ)
    (rand : ℕ → ℕ → Bool × Fin 2) (q0 : QTable) :
    qFinalTable cfg hy episodes rand q0 = qTrain cfg hy episodes rand q0 :=
  qEvalState_fst cfg (qTrain cfg hy episodes rand q0) (nSteps cfg.simulation_minutes)

/-- C1 counterexample: at the first PID step of the default configuration
the heater actuates with output 0.61, but the recorded next temperature is
not current + actuation * heaterPower * timestep: heat loss is subtracted
in the same step. -/
theorem pid_step_not_pure_heating_cex :
    pidAct cfg0 gains0 0 = 61/100 ∧
    (pidState cfg0 gains0 1).room_temperature = 190083/10000 ∧
    (pidState cfg0 gains0 1).room_temperature
      ≠ (pidState cfg0 gains0 0).room_temperature
        + pidAct cfg0 gains0 0 * cfg0.heater_power * (1/10) := by
  refine ⟨?_, ?_, ?_⟩ <;> norm_num [pidAct, pidStep, pidState, cfg0, gains0]

/-- C1 (amended): the On-Off step selects heating or loss as alternatives
through the heater status, while the PID step applies heating and loss
simultaneously: next = current + (heaterPower * actuation - heatLoss) * timestep. -/
theorem process_update_rule (cfg : Config) (g : PIDGains) (n : ℕ) :
    (pidState cfg g (n + 1)).room_temperature
      = (pidState cfg g n).room_temperature
        + (cfg.heater_power * pidAct cfg g n - cfg.heat_loss) * (1/10) ∧
    (onOffState cfg (n + 1)).1
      = (if (onOffState cfg (n + 1)).2
         then (onOffState cfg n).1 + cfg.heater_power * (1/10)
         else (onOffState cfg n).1 - cfg.heat_loss * (1/10)) :=
  ⟨rfl, rfl⟩

/-- C4 (amended): the module initializes q_table to zeros once at script
load, but run_q_learning_simulation itself never resets it: with no
training episodes the table the call received is returned untouched, so
table state persists across calls within one script execution. -/
theorem qtable_global_no_reset :
    (∀ (s : Fin 41) (a : Fin 2), initQTable s a = 0) ∧
    ∀ (cfg : Config) (hy : QHyper) (rand : ℕ → ℕ → Bool × Fin 2) (q0 : QTable),
      qTrain cfg hy 0 rand q0 = q0 ∧ qFinalTable cfg hy 0 rand q0 = q0 :=
  ⟨fun _ _ => rfl, fun cfg _ _ q0 =>
    ⟨rfl, qEvalState_fst cfg q0 (nSteps cfg.simulation_minutes)⟩⟩

/-- C4 counterexample: with zero training episodes and the global table
left nonzero by an earlier call (qNZ), the greedy trajectory starts by
heating (19.03) whereas from the all-zero table it starts by cooling
(18.99), and the nonzero entry survives the call: the invocation does not
begin from a zero table, and table state persists across calls. -/
theorem qtable_carried_across_calls_cex :
    (qTemps cfg0 hy0 0 rand0 qNZ).head? = some (1903/100) ∧
    (qTemps cfg0 hy0 0 rand0 initQTable).head? = some (1899/100) ∧
    qFinalTable cfg0 hy0 0 rand0 qNZ 18 1 = 1 ∧ (1903/100 : ℚ) ≠ 1899/100 := by
  have hs18 : stateIdx (19 : ℚ) = (18 : Fin 41) := by
    apply Fin.ext
    show (get_state (19 : ℚ)).toNat = 18
    have hg : get_state (19 : ℚ) = 18 := by norm_num [get_state, pyInt]
    rw [hg]
    rfl
  have hn : (0 : ℕ) < nSteps cfg0.simulation_minutes := by
    show (0 : ℕ) < nSteps 1
    rw [nSteps_eq]
    norm_num
  have hq1 : (qTemps cfg0 hy0 0 rand0 qNZ).head? = some ((qEvalState cfg0 qNZ 1).2.1) := by
    simp only [qTemps, run_q_learning_simulation]
    rw [show qTrain cfg0 hy0 0 rand0 qNZ = qNZ from rfl]
    exact runTemps_head cfg0 qNZ hn
  have hq2 : (qTemps cfg0 hy0 0 rand0 initQTable).head?
      = some ((qEvalState cfg0 initQTable 1).2.1) := by
    simp only [qTemps, run_q_learning_simulation]
    rw [show qTrain cfg0 hy0 0 rand0 initQTable = initQTable from rfl]
    exact runTemps_head cfg0 initQTable hn
  have he1 : (qEvalState cfg0 qNZ 1).2.1 = 1903/100 := by
    show (qEvalStep cfg0 (qEvalState cfg0 qNZ 0)).2.1 = 1903/100
    rw [show qEvalState cfg0 qNZ 0 = (qNZ, (19 : ℚ), stateIdx 19) from rfl]
    simp only [qEvalStep, qArgmax, qNZ, hs18]
    norm_num [cfg0]
  have he2 : (qEvalState cfg0 initQTable 1).2.1 = 1899/100 := by
    show (qEvalStep cfg0 (qEvalState cfg0 initQTable 0)).2.1 = 1899/100
    rw [show qEvalState cfg0 initQTable 0 = (initQTable, (19 : ℚ), stateIdx 19) from rfl]
    simp only [qEvalStep, qArgmax, initQTable, hs18]
    norm_num [cfg0]
  have hft : qFinalTable cfg0 hy0 0 rand0 qNZ = qNZ := by
    show (qEvalState cfg0 (qTrain cfg0 hy0 0 rand0 qNZ)
        (nSteps cfg0.simulation_minutes)).1 = qNZ
    rw [show qTrain cfg0 hy0 0 rand0 qNZ = qNZ from rfl]
    exact qEvalState_fst cfg0 qNZ _
  refine ⟨hq1.trans (by rw [he1]), hq2.trans (by rw [he2]), ?_, by norm_num⟩
  rw [hft]
  show (if (18 : Fin 41) = 18 ∧ (1 : Fin 2) = 1 then (1 : ℚ) else 0) = 1
  rw [if_pos ⟨rfl, rfl⟩]

/-- C2 counterexample: time [0,1], temperatures [0,2], setpoint 1: the
right-endpoint area of calculate_area_between_temp is 1, while
calculate_area_metrics reports overshoot 0, undershoot 0, total 0, so the
two totals differ. -/
theorem area_between_ne_metrics_total_cex :
    calculate_area_between_temp [0, 1] [0, 2] 1 = some 1 ∧
    calculate_area_metrics [0, 1] [0, 2] 1 = some (0, 0, 0) ∧
    (1 : ℚ) ≠ 0 := by
  refine ⟨?_, ?_, by norm_num⟩ <;>
    norm_num [calculate_area_between_temp, calculate_area_metrics, areaStep, metricsStep,
      List.range']

/-- C2 (amended): calculate_area_metrics returns (overshoot, undershoot,
overshoot + undershoot), where the total equals the trapezoidal-rule
integral of the absolute deviation; calculate_area_between_temp instead
returns the right-endpoint sum, which need not equal that total. -/
theorem metrics_total_and_rules (time temps : List ℚ) (s : ℚ)
    (hlen : temps.length = time.length) :
    calculate_area_metrics time temps s
      = some (overshootSum time temps s, undershootSum time temps s,
              trapAreaSum time temps s) ∧
    trapAreaSum time temps s = overshootSum time temps s + undershootSum time temps s ∧
    calculate_area_between_temp time temps s = some (rightAreaSum time temps s) := by
  have hsplit : trapAreaSum time temps s
      = overshootSum time temps s + undershootSum time temps s := by
    rw [trapAreaSum, overshootSum, undershootSum, ← Finset.sum_add_distrib]
    refine Finset.sum_congr rfl fun i _ => ?_
    rcases lt_trichotomy (avgAt temps i) s with hlt | heq | hgt
    · rw [abs_of_neg (sub_neg.mpr hlt), if_neg (not_lt.mpr hlt.le), if_pos hlt]
      ring
    · rw [heq]
      simp
    · rw [abs_of_pos (sub_pos.mpr hgt), if_pos hgt, if_neg (not_lt.mpr hgt.le)]
      ring
  refine ⟨?_, hsplit, ?_⟩
  · rcases Nat.eq_zero_or_pos time.length with h0 | hpos
    · rw [calculate_area_metrics, h0]
      simp [overshootSum, undershootSum, trapAreaSum, h0]
    · obtain ⟨m, hm⟩ : ∃ m, time.length = m + 1 := ⟨time.length - 1, by omega⟩
      have hov : overshootSum time temps s
          = ∑ i ∈ Finset.Ico 1 (m + 1),
              (if avgAt temps i > s then (avgAt temps i - s) * dtAt time i else 0) := by
        rw [overshootSum, hm]
      have hun : undershootSum time temps s
          = ∑ i ∈ Finset.Ico 1 (m + 1),
              (if avgAt temps i < s then (s - avgAt temps i) * dtAt time i else 0) := by
        rw [undershootSum, hm]
      rw [calculate_area_metrics, hm, Nat.add_sub_cancel,
          metricsFold_eq time temps s hlen m (by omega) 0 0, hsplit, hov, hun]
      simp
  · rcases Nat.eq_zero_or_pos time.length with h0 | hpos
    · rw [calculate_area_between_temp, h0]
      simp [rightAreaSum, h0]
    · obtain ⟨m, hm⟩ : ∃ m, time.length = m + 1 := ⟨time.length - 1, by omega⟩
      have hra : rightAreaSum time temps s
          = ∑ i ∈ Finset.Ico 1 (m + 1), |temps.getD i 0 - s| * dtAt time i := by
        rw [rightAreaSum, hm]
      rw [calculate_area_between_temp, hm, Nat.add_sub_cancel,
          areaFold_eq time temps s hlen m (by omega) 0, hra]
      simp

/-- C2 witness: a concrete two-sample trajectory, hypothesis discharged. -/
theorem metrics_total_and_rules_witness :
    calculate_area_metrics [0, 1/10] [19, 20] 20
      = some (overshootSum [0, 1/10] [19, 20] 20, undershootSum [0, 1/10] [19, 20] 20,
              trapAreaSum [0, 1/10] [19, 20] 20) ∧
    trapAreaSum [0, 1/10] [19, 20] 20
      = overshootSum [0, 1/10] [19, 20] 20 + undershootSum [0, 1/10] [19, 20] 20 ∧
    calculate_area_between_temp [0, 1/10] [19, 20] 20
      = some (rightAreaSum [0, 1/10] [19, 20] 20) :=
  metrics_total_and_rules [0, 1/10] [19, 20] 20 rfl

/-- C7: for a trajectory of length 0 or 1 the loops of both metrics
functions do not run: every computed metric is zero and no list access is
attempted, so none can be out of bounds. -/
theorem metrics_short_trajectory_safe (time temps : List ℚ) (s : ℚ)
    (h : time.length ≤ 1) :
    calculate_area_between_temp time temps s = some 0 ∧
    calculate_area_metrics time temps s = some (0, 0, 0) := by
  have h0 : time.length - 1 = 0 := by omega
  constructor
  · rw [calculate_area_between_temp, h0]
    rfl
  · rw [calculate_area_metrics, h0]
    simp

/-- C7 witness: a single-sample trajectory yields zero metrics. -/
theorem metrics_short_trajectory_safe_witness :
    calculate_area_between_temp [(0 : ℚ)] [] 5 = some 0 ∧
    calculate_area_metrics [(0 : ℚ)] [] 5 = some (0, 0, 0) :=
  metrics_short_trajectory_safe [0] [] 5 (by simp)

/-- C9: every strategy's trajectory has length round(horizon/timestep),
and the recorded time values advance by exactly the 0.1-minute timestep
at every consecutive pair (hence strictly increase). -/
theorem trajectory_length_time_grid (cfg : Config) :
    ((timeGrid cfg.simulation_minutes).length : ℤ)
        = round ((cfg.simulation_minutes : ℚ) / (1/10)) ∧
    (onOffTemps cfg).length = (timeGrid cfg.simulation_minutes).length ∧
    (∀ g : PIDGains, (pidTemps cfg g).length = (timeGrid cfg.simulation_minutes).length ∧
      (pidHeaterOut cfg g).length = (timeGrid cfg.simulation_minutes).length) ∧
    (∀ (hy : QHyper) (episodes : ℕ) (rand : ℕ → ℕ → Bool × Fin 2) (q0 : QTable),
      (qTime cfg hy episodes rand q0).length = (timeGrid cfg.simulation_minutes).length ∧
      (qTemps cfg hy episodes rand q0).length = (timeGrid cfg.simulation_minutes).length) ∧
    ∀ i : ℕ, i + 1 < (timeGrid cfg.simulation_minutes).length →
      (timeGrid cfg.simulation_minutes).getD (i + 1) 0
        - (timeGrid cfg.simulation_minutes).getD i 0 = 1/10 := by
  have hlen := timeGrid_length cfg.simulation_minutes
  refine ⟨?_, ?_, ?_, ?_, ?_⟩
  · rw [hlen, nSteps_eq]
    have h : ((cfg.simulation_minutes : ℚ)) / (1/10)
        = ((10 * cfg.simulation_minutes : ℕ) : ℚ) := by
      push_cast
      ring
    rw [h, round_natCast]
  · rw [onOffTemps, List.length_map, List.length_range, hlen]
  · intro g
    constructor
    · rw [pidTemps, List.length_map, List.length_range, hlen]
    · rw [pidHeaterOut, List.length_map, List.length_range, hlen]
  · intro hy episodes rand q0
    refine ⟨rfl, ?_⟩
    show ((List.range (nSteps cfg.simulation_minutes)).map
      (fun i => (qEvalState cfg (qTrain cfg hy episodes rand q0) (i + 1)).2.1)).length
        = (timeGrid cfg.simulation_minutes).length
    rw [List.length_map, List.length_range, hlen]
  · intro i hi
    rw [hlen] at hi
    rw [timeGrid_getD _ _ hi, timeGrid_getD _ _ (by omega)]
    push_cast
    ring

/-- C9 witness: with a one-minute horizon the grid has round(1/0.1) = 10
samples and the first two time values differ by exactly 0.1. -/
theorem trajectory_length_time_grid_witness :
    ((timeGrid cfg0.simulation_minutes).length : ℤ)
        = round ((cfg0.simulation_minutes : ℚ) / (1/10)) ∧
    (timeGrid cfg0.simulation_minutes).getD 1 0
      - (timeGrid cfg0.simulation_minutes).getD 0 0 = 1/10 :=
  ⟨(trajectory_length_time_grid cfg0).1,
   (trajectory_length_time_grid cfg0).2.2.2.2 0 (by
      rw [timeGrid_length, nSteps_eq]
      norm_num [cfg0])⟩

end Thermostat
